import Mathlib

/-!
Verification of the DnaChisel specification-evaluation framework.

This file gives a shallow embedding of the specification classes found in
`dnachisel/objectives/objectives.py`,
`dnachisel/builtin_specifications/EnforceMeltingTemperature.py` and
`dnachisel/specifications/builtin_specifications/CodonOptimize.py`,
together with theorems settling the frozen claims about them.

Conventions of the embedding:
* DNA sequences are `List Base`; Python string slicing `s[a:b]`
  (with its clamping behaviour for out-of-range bounds) is `pySlice`.
* Python (2) integers are `Nat` where the source only ever manipulates
  non-negative values; `max 0 (a - b)` patterns coincide with truncated
  `Nat` subtraction.
* Scores are `ℚ` (the source uses Python/numpy floats, but every score in
  the evaluated claims is produced by exact arithmetic on small fractions).
* Fallible code returns `Except Err _`.
* External black-box primitives (BLAST search, melting-temperature
  predictor, pattern matcher, translation table, codon-usage tables) are
  function parameters, as §6 of the spec treats them.
* Helpers that live in modules of this repository that are not part of the
  given sources (`biotools`, `Objective.py`, `Location.py`, the evaluation
  result classes) are modelled from the spec; each such definition carries
  a doc comment starting with `Modelled from the spec:`.
-/

/-- A DNA nucleotide.  The sequence alphabet {A,C,G,T} of §6 of the spec. -/
inductive Base where
  | A | C | G | T
deriving DecidableEq, Repr

/-- Modelled from the spec: the Watson-Crick complement used by the missing
`biotools.reverse_complement` helper (A↔T, C↔G). -/
def complement : Base → Base
  | Base.A => Base.T
  | Base.T => Base.A
  | Base.C => Base.G
  | Base.G => Base.C

/-- Modelled from the spec: `biotools.reverse_complement` (not under `src/`),
the reverse complement of a sequence. -/
def reverse_complement (l : List Base) : List Base :=
  (l.map complement).reverse

/-- Python slice `l[a:b]` for `0 ≤ a ≤ b` (out-of-range bounds clamp,
`b < a` gives the empty list, exactly as in Python). -/
def pySlice (l : List α) (a b : Nat) : List α :=
  (l.drop a).take (b - a)

/-- Modelled from the spec: `biotools.windows_overlap` (not under `src/`).
Per §4.1, `overlap(a, b)` "returns the intersection interval, or none if
disjoint (touching at a single point counts as no overlap)". -/
def windows_overlap (w1 w2 : Nat × Nat) : Option (Nat × Nat) :=
  if max w1.1 w2.1 < min w1.2 w2.2 then some (max w1.1 w2.1, min w1.2 w2.2) else none

/-- Modelled from the spec: the Evaluation Result value object of §3
(class `ObjectiveEvaluation` of the missing `Objective.py`): the score and
the ordered violated windows.  The free-text `message` and the references
to the specification/problem are omitted: no claim mentions them.
A windows argument of Python `None` is embedded as `[]`. -/
structure ObjectiveEvaluation where
  score : ℚ
  windows : List (Nat × Nat)
deriving DecidableEq, Repr

/-- Result of `localized`: either the designated void specification or a
live specification of the same class. -/
inductive Localized (α : Type) where
  | void
  | live (spec : α)
deriving DecidableEq, Repr

/-- Modelled from the spec: the evaluation of the designated "void"
specification returned by `localized` for non-overlapping windows (class
`VoidObjective` of the missing `Objective.py`): per §4.2 its "score is
always the best-possible value", and it reports no violated windows. -/
def voidEvaluation (best_possible_score : ℚ) : ObjectiveEvaluation :=
  { score := best_possible_score, windows := [] }

/-- The Python exceptions raised by the embedded code. -/
inductive Err where
  /-- `ValueError` (the spec's taxonomy calls these `ConfigurationError`
  at construction time and `RangeError` at evaluation time). -/
  | valueError
  /-- `TypeError` (arithmetic on incompatible Python types). -/
  | typeError
  /-- `AttributeError` (attribute access on `None`). -/
  | attributeError
deriving DecidableEq, Repr

/- ## EnforceGCContent (objectives.py lines 455-568) -/

/-- The `EnforceGCContent` objective: bounds on global or sliding-window GC
content, optionally restricted to a sub-window of the sequence.
`gc_objective`, when given, was used by the constructor to set
`gc_min = gc_max = gc_objective`; it is stored but never read again. -/
structure EnforceGCContent where
  gc_min : ℚ
  gc_max : ℚ
  gc_objective : Option ℚ := none
  gc_window : Option Nat := none
  window : Option (Nat × Nat) := none
  boost : ℚ := 1
deriving DecidableEq, Repr

/-- Whether a nucleotide counts towards GC content. -/
def isGC : Base → Bool
  | Base.G => true
  | Base.C => true
  | Base.A => false
  | Base.T => false

/-- Modelled from the spec: `biotools.gc_content(sequence)` without a
sliding window (not under `src/`): the global proportion of G/C bases
(a single value, §4.3's "the signal is a single global value"). -/
def gc_content (l : List Base) : ℚ :=
  (l.countP isGC : ℚ) / (l.length : ℚ)

/-- Modelled from the spec: `biotools.gc_content(sequence, window)` with a
sliding window (not under `src/`): the local GC proportion of each
length-`w` window, one value per start position (§4.3's per-position
signal over a window). -/
def gc_content_sliding (l : List Base) (w : Nat) : List ℚ :=
  (List.range (l.length + 1 - w)).map fun i => gc_content (pySlice l i (i + w))

/-- The per-position breach of `[gc_min, gc_max]` bounds:
`np.maximum(0, gc_min - gc) + np.maximum(0, gc - gc_max)` in the source. -/
def breachValue (gc_min gc_max v : ℚ) : ℚ :=
  max 0 (gc_min - v) + max 0 (v - gc_max)

/-- Indices (in ascending order, starting at `i`) of the entries of `l`
that are `> 0`: the tail-indexed worker for `breachesStarts`. -/
def breachesStartsAux : List ℚ → Nat → List Nat
  | [], _ => []
  | x :: xs, i => if 0 < x then i :: breachesStartsAux xs (i + 1) else breachesStartsAux xs (i + 1)

/-- `(breaches > 0).nonzero()[0]` of the source: the ascending indices of
the positive entries of the breach signal. -/
def breachesStarts (l : List ℚ) : List Nat :=
  breachesStartsAux l 0

/-- The run-merging loop of `EnforceGCContent.evaluate` (source lines
520-534): walking the remaining breach-start indices with the current
run's start and current `last_end`, closing a run whenever the next index
exceeds `last_end + gc_window`. -/
def breachesMergeLoop (wstart gcw : Nat) : List Nat → Nat → Nat → List (Nat × Nat)
  | [], current_start, last_end => [(wstart + current_start, wstart + last_end)]
  | i :: rest, current_start, last_end =>
    if last_end + gcw < i then
      (wstart + current_start, wstart + last_end) :: breachesMergeLoop wstart gcw rest i (i + gcw)
    else
      breachesMergeLoop wstart gcw rest current_start (i + gcw)

/-- Dispatch on the number of breach starts, for the sliding-window case
(source lines 511-534 with `gc_window` not `None`): no starts gives no
windows; a single start `s` gives `[(s, s + gcw)]` (note: the source does
NOT add `wstart` in this branch); two or more starts run the merging loop
(which does add `wstart`). -/
def breachesWindows (wstart gcw : Nat) : List Nat → List (Nat × Nat)
  | [] => []
  | [s] => [(s, s + gcw)]
  | s :: rest => breachesMergeLoop wstart gcw rest s (s + gcw)

/-- `EnforceGCContent.evaluate` (source lines 499-543).  The global case
(`gc_window = None`) has a scalar breach signal, so the breach-start list
is `[0]` or `[]` and the reported window, if any, is the whole evaluated
window; the sliding case uses the breach-run machinery above. -/
def EnforceGCContent.evaluate (g : EnforceGCContent) (seq : List Base) : ObjectiveEvaluation :=
  let w := g.window.getD (0, seq.length)
  let sequence := pySlice seq w.1 w.2
  match g.gc_window with
  | none =>
    let breach := breachValue g.gc_min g.gc_max (gc_content sequence)
    { score := -breach
      windows := if 0 < breach then [(w.1, w.2)] else [] }
  | some gcw =>
    let breaches := (gc_content_sliding sequence gcw).map (breachValue g.gc_min g.gc_max)
    { score := -breaches.sum
      windows := breachesWindows w.1 gcw (breachesStarts breaches) }

/-- `EnforceGCContent.localized` (source lines 545-562). -/
def EnforceGCContent.localized (g : EnforceGCContent) (w : Nat × Nat) :
    Localized EnforceGCContent :=
  match g.window with
  | some own =>
    match windows_overlap own w with
    | none => Localized.void
    | some new_window => Localized.live { g with window := some new_window }
  | none =>
    match g.gc_window with
    | some gcw => Localized.live { g with window := some (w.1 - gcw, w.2 + gcw) }
    | none => Localized.live { g with window := none }

/-- Modelled from the spec: the best possible score of `EnforceGCContent`
(the base-class default `0`; the score `-sum(breaches)` is at most `0`). -/
def EnforceGCContent.best_possible_score : ℚ := 0

/-- Evaluating the result of `EnforceGCContent.localized` (the void
specification evaluates per `voidEvaluation`). -/
def EnforceGCContent.localizedEvaluate (g : EnforceGCContent) (w : Nat × Nat)
    (seq : List Base) : ObjectiveEvaluation :=
  match g.localized w with
  | Localized.void => voidEvaluation EnforceGCContent.best_possible_score
  | Localized.live g' => g'.evaluate seq

/-- The values measured by an `EnforceGCContent` specification on a
sequence: the single global GC content, or the sliding-window GC contents,
of its evaluated window. -/
def EnforceGCContent.measuredValues (g : EnforceGCContent) (seq : List Base) : List ℚ :=
  let w := g.window.getD (0, seq.length)
  let sequence := pySlice seq w.1 w.2
  match g.gc_window with
  | none => [gc_content sequence]
  | some gcw => gc_content_sliding sequence gcw

/- ## AvoidBlastMatches (objectives.py lines 18-105) -/

/-- The `AvoidBlastMatches` objective.  The BLAST parameters (`blast_db`,
`word_size`, `perc_identity`, `num_alignments`, `num_threads`) are only
forwarded to the external `blast_sequence` call, which §6 of the spec
treats as a black box `(sequence, database, parameters) -> list of
(query_start, query_end)`; they are therefore absorbed into the `blastFn`
function parameter of `evaluate` below, and only the fields the evaluation
and localization logic reads are kept. -/
structure AvoidBlastMatches where
  min_align_length : Nat := 20
  window : Option (Nat × Nat) := none
deriving DecidableEq, Repr

/-- Lexicographic order on pairs: Python's comparison of 2-tuples of
integers, as used by `sorted` on lists of `(start, end)` windows. -/
def lexLe (a b : Nat × Nat) : Prop :=
  a.1 < b.1 ∨ (a.1 = b.1 ∧ a.2 ≤ b.2)

instance : DecidableRel lexLe := fun a b => by
  unfold lexLe
  exact inferInstance

/-- Python's `sorted` on a list of integer pairs (it returns the unique
lexicographically sorted permutation). -/
def pySorted (l : List (Nat × Nat)) : List (Nat × Nat) :=
  List.insertionSort lexLe l

/-- `AvoidBlastMatches.evaluate` (source lines 58-86).  `blastFn` is the
black-box local-BLAST search, returning the `(query_start, query_end)`
spans of all HSPs found for the subsequence it is given (coordinates
relative to that subsequence).  Python's `sorted((a, b))` on a 2-tuple
orders the two numbers, hence the `(min, max)` below. -/
def AvoidBlastMatches.evaluate (blastFn : List Base → List (Nat × Nat))
    (b : AvoidBlastMatches) (seq : List Base) : ObjectiveEvaluation :=
  let w := b.window.getD (0, seq.length)
  let sequence := pySlice seq w.1 w.2
  let windows := pySorted <|
    ((blastFn sequence).filter
        fun h => b.min_align_length ≤ max h.1 h.2 - min h.1 h.2).map
      fun h => (min (h.1 + w.1) (h.2 + w.1), max (h.1 + w.1) (h.2 + w.1))
  if windows = [] then { score := 1, windows := [] }
  else { score := -(windows.length : ℚ), windows := windows }

/-- `AvoidBlastMatches.localized` (source lines 88-99). -/
def AvoidBlastMatches.localized (b : AvoidBlastMatches) (w : Nat × Nat) :
    Localized AvoidBlastMatches :=
  match b.window with
  | some own =>
    match windows_overlap own w with
    | none => Localized.void
    | some new_window => Localized.live { b with window := some new_window }
  | none =>
    Localized.live { b with window := some (w.1 - b.min_align_length, w.2 + b.min_align_length) }

/-- Modelled from the spec: the best possible score of `AvoidBlastMatches`
(its passing score is `1`, any match makes the score negative). -/
def AvoidBlastMatches.best_possible_score : ℚ := 1

/-- Evaluating the result of `AvoidBlastMatches.localized`. -/
def AvoidBlastMatches.localizedEvaluate (blastFn : List Base → List (Nat × Nat))
    (b : AvoidBlastMatches) (w : Nat × Nat) (seq : List Base) : ObjectiveEvaluation :=
  match b.localized w with
  | Localized.void => voidEvaluation AvoidBlastMatches.best_possible_score
  | Localized.live b' => b'.evaluate blastFn seq

/- ## AvoidNonuniqueKmers / AvoidNonuniqueSegments (objectives.py lines 161-288)

The two classes have verbatim-identical `evaluate` bodies (only the failure
message differs); they are embedded once. -/

/-- The `AvoidNonuniqueKmers` objective (= `AvoidNonuniqueSegments`). -/
structure AvoidNonuniqueKmers where
  length : Nat
  window : Option (Nat × Nat) := none
  include_reverse_complement : Bool := false
deriving DecidableEq, Repr

/-- The k-mer records of the forward scanning pass (source lines 186-188):
for each `i` in `range(len(sequence) - length)` — note the missing `+ 1`,
the final k-mer start position is never scanned — the k-mer starting at
`i` together with its `(start, end)` position. -/
def kmerRecordsForward (sequence : List Base) (length : Nat) :
    List (List Base × (Nat × Nat)) :=
  (List.range (sequence.length - length)).map
    fun i => (pySlice sequence i (i + length), (i, i + length))

/-- The k-mer records of the reverse-complement pass (source lines
189-194): k-mers of the reverse complement, recorded under positions
mirrored back to the forward coordinate frame. -/
def kmerRecordsRC (sequence : List Base) (length : Nat) :
    List (List Base × (Nat × Nat)) :=
  (List.range (sequence.length - length)).map
    fun i => (pySlice (reverse_complement sequence) i (i + length),
              (sequence.length - (i + length), sequence.length - i))

/-- All k-mer records, in recording order. -/
def kmerRecords (sequence : List Base) (length : Nat) (rc : Bool) :
    List (List Base × (Nat × Nat)) :=
  kmerRecordsForward sequence length ++ if rc then kmerRecordsRC sequence length else []

/-- Append a position under a key in an association list of occurrence
lists, creating the entry (at the end, preserving first-insertion key
order, like a Python `defaultdict`) if the key is new. -/
def addOcc : List (List Base × List (Nat × Nat)) → List Base → Nat × Nat →
    List (List Base × List (Nat × Nat))
  | [], k, p => [(k, [p])]
  | (k', ps) :: rest, k, p =>
    if k' = k then (k', ps ++ [p]) :: rest else (k', ps) :: addOcc rest k p

/-- The `kmers_locations` defaultdict built by the scanning loops, as an
association list in key-first-insertion order. -/
def kmersLocations (records : List (List Base × (Nat × Nat))) :
    List (List Base × List (Nat × Nat)) :=
  records.foldl (fun m r => addOcc m r.1 r.2) []

/-- Python's `min(positions_list, key=lambda p: p[0])`: the first element
with minimal first component. -/
def pyMinByFst : List (Nat × Nat) → Nat × Nat
  | [] => (0, 0)
  | p :: rest => rest.foldl (fun m q => if q.1 < m.1 then q else m) p

/-- `AvoidNonuniqueKmers.evaluate` = `AvoidNonuniqueSegments.evaluate`
(source lines 178-211 and 250-285): record every scanned k-mer's position
under its key (plus the mirrored reverse-complement records when enabled),
keep the earliest recorded occurrence of every key recorded more than
once, sort, and score `1` (pass) if there are none, else minus their
count.  The reported positions are relative to the evaluated window's
subsequence (the source adds no `wstart` offset here). -/
def AvoidNonuniqueKmers.evaluate (a : AvoidNonuniqueKmers) (seq : List Base) :
    ObjectiveEvaluation :=
  let w := a.window.getD (0, seq.length)
  let sequence := pySlice seq w.1 w.2
  let m := kmersLocations (kmerRecords sequence a.length a.include_reverse_complement)
  let windows := pySorted <|
    m.filterMap fun e => if 1 < e.2.length then some (pyMinByFst e.2) else none
  if windows = [] then { score := 1, windows := [] }
  else { score := -(windows.length : ℚ), windows := windows }

/- ## EnforcePattern (objectives.py lines 571-613) -/

/-- The `EnforcePattern` objective: the pattern must occur exactly
`occurences` times (sic, the source's spelling) in the window.  The
pattern itself is embedded as a literal DNA word; the source delegates
matching to `self.pattern.find_matches`, a black box per §6. -/
structure EnforcePattern where
  pattern : List Base
  window : Option (Nat × Nat) := none
  occurences : Nat := 1
  boost : ℚ := 1
deriving DecidableEq, Repr

/-- Modelled from the spec: the external pattern matcher
`pattern.find_matches(sequence, window)` of §6, "`(sequence, window) ->
sorted list of (start, end)`": the `(start, end)` spans of the occurrences
of the literal pattern lying inside the window, in ascending order. -/
def find_matches (pattern : List Base) (seq : List Base) (w : Nat × Nat) :
    List (Nat × Nat) :=
  ((List.range (seq.length + 1 - pattern.length)).filter fun i =>
      decide (w.1 ≤ i ∧ i + pattern.length ≤ w.2 ∧
        pySlice seq i (i + pattern.length) = pattern)).map
    fun i => (i, i + pattern.length)

/-- `EnforcePattern.evaluate` (source lines 590-610): score
`-abs(len(matches) - occurences)`; the reported windows are always
`[window]` — the local `window` variable has been defaulted to the whole
sequence before the `None` test, so the `None` branch of
`windows=None if window is None else [window]` is unreachable. -/
def EnforcePattern.evaluate (p : EnforcePattern) (seq : List Base) :
    ObjectiveEvaluation :=
  let w := p.window.getD (0, seq.length)
  let found := find_matches p.pattern seq w
  { score := -(((found.length : Int) - (p.occurences : Int)).natAbs : ℚ)
    windows := [w] }

/- ## EnforceRegionsCompatibility (objectives.py lines 616-684) -/

/-- The `EnforceRegionsCompatibility` objective: a user-supplied pairwise
compatibility condition over a list of regions.  The condition
`compatibility_condition(r1, r2, canvas)` is a black-box function
parameter of the evaluations below. -/
structure EnforceRegionsCompatibility where
  regions : List (Nat × Nat)
  boost : ℚ := 1
deriving DecidableEq, Repr

/-- `itertools.combinations(l, 2)`: all ordered-by-position pairs
`(l[i], l[j])` with `i < j`. -/
def combinations2 : List α → List (α × α)
  | [] => []
  | x :: xs => (xs.map fun y => (x, y)) ++ combinations2 xs

/-- Worker for `firstDedup`: drop the elements already in `seen`, keep
the first occurrence of each remaining value. -/
def firstDedupAux [DecidableEq α] (seen : List α) : List α → List α
  | [] => []
  | x :: xs => if x ∈ seen then firstDedupAux seen xs else x :: firstDedupAux (x :: seen) xs

/-- Duplicate removal keeping first occurrences (deterministic stand-in
for Python's `list(set(...))`, whose iteration order is unspecified; the
theorems below only use order-independent facts about this list). -/
def firstDedup [DecidableEq α] (l : List α) : List α :=
  firstDedupAux [] l

/-- `EnforceRegionsCompatibility.evaluate` (source lines 624-653): score is
minus the number of incompatible region pairs; the reported windows are
the distinct regions involved in some incompatibility, sorted by how many
incompatibilities they appear in (`key=counter.get`, ascending). -/
def EnforceRegionsCompatibility.evaluate
    (compatibility_condition : (Nat × Nat) → (Nat × Nat) → List Base → Bool)
    (r : EnforceRegionsCompatibility) (seq : List Base) : ObjectiveEvaluation :=
  let incompatible_regions_pairs :=
    (combinations2 r.regions).filter fun p => !compatibility_condition p.1 p.2 seq
  let all_regions_with_incompatibility :=
    incompatible_regions_pairs.flatMap fun p => [p.1, p.2]
  let windows :=
    List.insertionSort
      (fun a b => all_regions_with_incompatibility.count a ≤
        all_regions_with_incompatibility.count b)
      (firstDedup all_regions_with_incompatibility)
  { score := -(incompatible_regions_pairs.length : ℚ), windows := windows }

/-- The evaluation of the localized objective built by
`EnforceRegionsCompatibility.localized` (source lines 655-681): the
returned generic `Objective` wraps the closure `evaluate(canvas)`, which
counts, over all ordered pairs of a region and an included region that
differ, those failing the compatibility condition — and reports no
windows. -/
def EnforceRegionsCompatibility.localizedEvaluate
    (compatibility_condition : (Nat × Nat) → (Nat × Nat) → List Base → Bool)
    (r : EnforceRegionsCompatibility) (w : Nat × Nat) (seq : List Base) :
    ObjectiveEvaluation :=
  let included_regions := r.regions.filter fun ab =>
    decide (w.1 ≤ ab.1 ∧ ab.1 ≤ ab.2 ∧ ab.2 ≤ w.2)
  let incompatible_regions := r.regions.flatMap fun region =>
    (included_regions.filter fun included =>
        decide (region ≠ included) && !compatibility_condition included region seq).map
      fun _ => region
  { score := -(incompatible_regions.length : ℚ), windows := [] }

/- ## EnforceTranslation (objectives.py lines 721-827) -/

/-- The `EnforceTranslation` objective.  Amino acids of the target protein
are `Char` (the source uses a protein string).  The source field
`initialize_translation_from_problem` is omitted: the constructor computes
`len(translation)` before setting it, so it can only ever be `False` in a
successfully constructed object (constructing with `translation=None`
raises a `TypeError` first).  The `window` field is likewise never `None`
in a constructed object (the constructor computes `window[1] - window[0]`),
so the dead `window is None` tests of `evaluate`/`localized` are dropped. -/
structure EnforceTranslation where
  window : Nat × Nat
  strand : Int := 1
  translation : List Char
  boost : ℚ := 1
deriving DecidableEq, Repr

/-- `EnforceTranslation.__init__` (source lines 767-779): raises
`ValueError` unless the window size is exactly three times the length of
the translation.  The window size is computed over ℤ, as in Python. -/
def EnforceTranslation.init (window : Nat × Nat) (strand : Int)
    (translation : List Char) (boost : ℚ) : Except Err EnforceTranslation :=
  if (window.2 : Int) - (window.1 : Int) ≠ 3 * (translation.length : Int) then
    Except.error Err.valueError
  else
    Except.ok { window := window, strand := strand, translation := translation, boost := boost }

/-- `EnforceTranslation.evaluate` (source lines 792-802): score `1` if the
window's subsequence (reverse-complemented on the antisense strand)
translates to the stored protein, else `-1`; no windows are reported.
`translateFn` is the black-box `biotools.translate`. -/
def EnforceTranslation.evaluate (translateFn : List Base → List Char)
    (t : EnforceTranslation) (seq : List Base) : ObjectiveEvaluation :=
  let subsequence := pySlice seq t.window.1 t.window.2
  let subsequence := if t.strand = -1 then reverse_complement subsequence else subsequence
  { score := if translateFn subsequence = t.translation then 1 else -1
    windows := [] }

/-- `EnforceTranslation.localized` (source lines 804-824): on overlap,
snap the overlap to whole codons of the original window and slice the
translation accordingly; the result goes through the constructor (hence
the `Except`). -/
def EnforceTranslation.localized (t : EnforceTranslation) (w : Nat × Nat) :
    Except Err (Localized EnforceTranslation) :=
  match windows_overlap w t.window with
  | none => Except.ok Localized.void
  | some overlap =>
    let start_codon := (overlap.1 - t.window.1) / 3
    let end_codon := (overlap.2 - t.window.1) / 3
    let new_window := (t.window.1 + 3 * start_codon,
                       min t.window.2 (t.window.1 + 3 * (end_codon + 1)))
    let new_translation := (t.translation.drop start_codon).take (end_codon + 1 - start_codon)
    (EnforceTranslation.init new_window t.strand new_translation t.boost).map Localized.live

/-- `EnforceTranslation.best_possible_score` (source line 765). -/
def EnforceTranslation.best_possible_score : ℚ := 1

/-- Evaluating the result of `EnforceTranslation.localized`. -/
def EnforceTranslation.localizedEvaluate (translateFn : List Base → List Char)
    (t : EnforceTranslation) (w : Nat × Nat) (seq : List Base) :
    Except Err ObjectiveEvaluation :=
  (t.localized w).map fun l =>
    match l with
    | Localized.void => voidEvaluation EnforceTranslation.best_possible_score
    | Localized.live t' => t'.evaluate translateFn seq

/- ## Location (newer-style specifications) -/

/-- Modelled from the spec: the `Location` class (not under `src/`), §3's
`(start, end, strand)` half-open interval. -/
structure Loc where
  start : Nat
  end_ : Nat
  strand : Int := 1
deriving DecidableEq, Repr

/-- Modelled from the spec: `Location.extract_sequence` (§4.1): slice
`[start, end)` of the full sequence, reverse-complemented when the strand
is `-1`.  (The `RangeError` precondition of §4.1 — bounds inside
`[0, len]` — is not exercised by any claim; the slice clamps.) -/
def Loc.extract_sequence (l : Loc) (seq : List Base) : List Base :=
  let sub := pySlice seq l.start l.end_
  if l.strand = -1 then reverse_complement sub else sub

/- ## EnforceMeltingTemperature (builtin_specifications/EnforceMeltingTemperature.py) -/

/-- The `EnforceMeltingTemperature` specification. -/
structure EnforceMeltingTemperature where
  mini : ℚ
  maxi : ℚ
  target : ℚ
  location : Option Loc := none
  boost : ℚ := 1
deriving DecidableEq, Repr

/-- `EnforceMeltingTemperature.__init__` (source lines 37-51): a given
`target` silently overrides `mini`/`maxi` (both are set to `target`, with
no error whatsoever); with no `target`, the target becomes
`0.5 * (mini + maxi)` — which is a Python `TypeError` when either bound is
`None`.  (The `tuple -> Location` conversion of the `location` argument is
left to the caller here.) -/
def EnforceMeltingTemperature.init (mini maxi target : Option ℚ)
    (location : Option Loc) (boost : ℚ) : Except Err EnforceMeltingTemperature :=
  match target with
  | some t =>
    Except.ok { mini := t, maxi := t, target := t, location := location, boost := boost }
  | none =>
    match mini, maxi with
    | some mi, some ma =>
      Except.ok { mini := mi, maxi := ma, target := (mi + ma) / 2,
                  location := location, boost := boost }
    | _, _ => Except.error Err.typeError

/-- `EnforceMeltingTemperature.evaluate` (source lines 56-68): the
melting-temperature predictor (primer3 or Biopython, per §6 a black box
`(sequence) -> real`) is the parameter `predictTm`.  Score is
`0.5 * (maxi - mini) - abs(tm - target)`; the reported locations are
always `[self.location]` (embedded as its `(start, end)` span).  With
`location = None` (i.e. before `initialize_on_problem`) the attribute
access `self.location.extract_sequence` raises. -/
def EnforceMeltingTemperature.evaluate (predictTm : List Base → ℚ)
    (m : EnforceMeltingTemperature) (seq : List Base) : Except Err ObjectiveEvaluation :=
  match m.location with
  | none => Except.error Err.attributeError
  | some loc =>
    let tm := predictTm (loc.extract_sequence seq)
    Except.ok { score := (m.maxi - m.mini) / 2 - |tm - m.target|
                windows := [(loc.start, loc.end_)] }

/- ## CodonOptimize, objectives.py version (lines 310-394) -/

/-- The older `CodonOptimize` objective of `objectives.py`.  The codon
usage table `CODON_USAGE[organism]` / `codon_usage_table` argument is the
black-box `usage` parameter of `evaluate` (§6: codon-usage table lookup
`codon -> frequency`); the constructor's `ValueError` when both `organism`
and `codon_usage_table` are omitted mirrors `CodonOptimize.init` below. -/
structure CodonOptimizeOld where
  window : Option (Nat × Nat) := none
  strand : Int := 1
  boost : ℚ := 1
deriving DecidableEq, Repr

/-- `CodonOptimize.evaluate`, objectives.py version (lines 371-391):
`ValueError` when the window's length is not a multiple of 3, else the sum
of the codons' usage frequencies as score, and always the single window
`[start, end]`. -/
def CodonOptimizeOld.evaluate (usage : List Base → ℚ) (c : CodonOptimizeOld)
    (seq : List Base) : Except Err ObjectiveEvaluation :=
  let w := c.window.getD (0, seq.length)
  let subsequence := pySlice seq w.1 w.2
  let subsequence := if c.strand = -1 then reverse_complement subsequence else subsequence
  if subsequence.length % 3 ≠ 0 then Except.error Err.valueError
  else
    Except.ok
      { score := ((List.range (subsequence.length / 3)).map
          fun i => usage (pySlice subsequence (3 * i) (3 * (i + 1)))).sum
        windows := [(w.1, w.2)] }

/- ## CodonOptimize, specifications/builtin_specifications version -/

/-- Tail-indexed worker for `nonzeroIndices`. -/
def nonzeroIndicesAux : List ℚ → Nat → List Nat
  | [], _ => []
  | x :: xs, i => if x ≠ 0 then i :: nonzeroIndicesAux xs (i + 1) else nonzeroIndicesAux xs (i + 1)

/-- `np.nonzero(arr)[0]`: the ascending indices of the nonzero entries. -/
def nonzeroIndices (l : List ℚ) : List Nat :=
  nonzeroIndicesAux l 0

/-- The newer `CodonOptimize` specification
(`specifications/builtin_specifications/CodonOptimize.py`). -/
structure CodonOptimize where
  species : Option String := none
  location : Option Loc := none
  boost : ℚ := 1
deriving DecidableEq, Repr

/-- `CodonOptimize.__init__` (source lines 58-68): a given `species` name
replaces the `codon_usage_table` argument by the looked-up table
(`CODON_USAGE_TABLES`, a black-box config mapping per §6, is the
`speciesTables` parameter); if the resulting table is still `None`, a
`ValueError` ("Provide either an species name or a codon usage table") is
raised.  The table type `τ` is abstract: the table is only ever passed on. -/
def CodonOptimize.init {τ : Type} (speciesTables : String → τ)
    (species : Option String) (codon_usage_table : Option τ)
    (location : Option Loc) (boost : ℚ) :
    Except Err (CodonOptimize × τ) :=
  let table := match species with
    | some s => some (speciesTables s)
    | none => codon_usage_table
  match table with
  | none => Except.error Err.valueError
  | some t =>
    Except.ok ({ species := species, location := location, boost := boost }, t)

/-- `CodonOptimize.evaluate` (source lines 70-111).  `current cd` is
`codon_usage_table[cd]` and `optimalOf cd` is
`codon_usage_table[CODONS_TRANSLATIONS[cd]]` (the frequency of the
most-used synonymous codon — table and translation table are black boxes).
The function follows the source line by line up to `nonoptimal_indices`:

* a window length not a multiple of 3 raises `ValueError`;
* an empty codon list makes the `current, optimal = zip(*[...])`
  unpacking raise (`ValueError: need more than 0 values to unpack`);
* otherwise `nonoptimal_indices = 3 * np.nonzero(non_optimality)`
  multiplies the 1-TUPLE returned by `np.nonzero` — tuple repetition, not
  scalar multiplication — so the subsequent
  `self.location.end - nonoptimal_indices` (strand `-1`) or
  `nonoptimal_indices += self.location.start` both apply int/tuple
  arithmetic and raise `TypeError` (after an `AttributeError` on
  `self.location.strand` when `self.location` is `None`).

Hence `evaluate` never returns a `SpecEvaluation`. -/
def CodonOptimize.evaluate (current optimalOf : List Base → ℚ)
    (c : CodonOptimize) (seq : List Base) : Except Err ObjectiveEvaluation :=
  let location := c.location.getD { start := 0, end_ := seq.length, strand := 1 }
  let subsequence := location.extract_sequence seq
  if subsequence.length % 3 ≠ 0 then Except.error Err.valueError
  else
    let codons := (List.range (subsequence.length / 3)).map
      fun i => pySlice subsequence (3 * i) (3 * (i + 1))
    if codons = [] then Except.error Err.valueError
    else
      let non_optimality := codons.map fun cd => optimalOf cd - current cd
      let _nonzero_indices := nonzeroIndices non_optimality
      match c.location with
      | none => Except.error Err.attributeError
      | some _ => Except.error Err.typeError

/- ## Direct characterization of the uniqueness scanner (for claim C6)

The following definitions restate, straight from the spec's words (§4.4),
what the scanner is supposed to report — key occurrences read off the
record list directly, not through the association-list grouping — so that
the embedded `AvoidNonuniqueKmers.evaluate` can be proved equal to them. -/

/-- Reading the occurrence list of a key from the grouped association
list (first matching entry, like a Python dict lookup). -/
def lookupOccs : List (List Base × List (Nat × Nat)) → List Base → List (Nat × Nat)
  | [], _ => []
  | (k', ps) :: rest, k => if k' = k then ps else lookupOccs rest k

/-- The recorded occurrences of key `k`, read directly off the record
list: the positions of the records carrying that key, in recording
order. -/
def occsIn (records : List (List Base × (Nat × Nat))) (k : List Base) : List (Nat × Nat) :=
  (records.filter fun r => decide (r.1 = k)).map Prod.snd

/-- The distinct keys recorded at more than one position, in order of
first recording. -/
def repeatedKeys (records : List (List Base × (Nat × Nat))) : List (List Base) :=
  (firstDedup (records.map Prod.fst)).filter fun k => decide (1 < (occsIn records k).length)

/-- The record list scanned by `AvoidNonuniqueKmers.evaluate` on a given
sequence: the k-mer records of its evaluated window's subsequence. -/
def scannerRecords (a : AvoidNonuniqueKmers) (seq : List Base) :
    List (List Base × (Nat × Nat)) :=
  let w := a.window.getD (0, seq.length)
  kmerRecords (pySlice seq w.1 w.2) a.length a.include_reverse_complement

/- ## Concrete inputs used by the claims -/

/-- The 15-base sequence `"AAAAA" + "CCCCC" + "AAAAA"` of §8 of the spec. -/
def nonuniqueExampleSeq : List Base :=
  List.replicate 5 Base.A ++ List.replicate 5 Base.C ++ List.replicate 5 Base.A

/-- A 25-base sequence whose 5-window GC-content breach signal (for bounds
`[0, 4/5]`) is positive exactly at positions 0 and 20: five G's, fifteen
A's, five G's. -/
def gcTwoFarBreachesSeq : List Base :=
  List.replicate 5 Base.G ++ List.replicate 15 Base.A ++ List.replicate 5 Base.G

/-- A 12-base sequence whose 5-window GC-content breach signal (for bounds
`[0, 4/5]`) is positive exactly at positions 0 and 6:
`GGGGG A GGGGG A`. -/
def gcTwoNearBreachesSeq : List Base :=
  List.replicate 5 Base.G ++ [Base.A] ++ List.replicate 5 Base.G ++ [Base.A]

/-- The `EnforceGCContent` instance used for the breach-run-merging claim:
sliding window `W = 5`, bounds `[0, 4/5]`, whole-sequence window. -/
def gcMergeSpec : EnforceGCContent :=
  { gc_min := 0, gc_max := 4/5, gc_window := some 5 }

/- ## Theorems -/

/-- C5.  The spec's concrete uniqueness-scanner case FAILS on the code:
on `"AAAAA" + "CCCCC" + "AAAAA"` with `length = 5`, no reverse complement
and the whole-sequence window, `AvoidNonuniqueKmers.evaluate` (equally
`AvoidNonuniqueSegments.evaluate`) returns the PASSING evaluation
(score `1`, no windows) instead of the claimed score `-1` with window
`(0, 5)`: the scanning loop `for i in range(len(sequence) - self.length)`
stops one position short, so the final k-mer `sequence[10:15] = "AAAAA"`
is never recorded and the repeat goes undetected — contradicting the
method's own docstring ("Return 1 if the sequence has no repeats, else
-N where N is the number of non-unique segments").  The second conjunct
exhibits the repeat the scanner misses. -/
theorem C5_code_result :
    AvoidNonuniqueKmers.evaluate { length := 5 } nonuniqueExampleSeq =
      { score := 1, windows := [] } ∧
    pySlice nonuniqueExampleSeq 0 5 = pySlice nonuniqueExampleSeq 10 15 := by
  constructor
  · rfl
  · rfl

/-- C8.  The all-optimal-codon half of the claim FAILS on the code: with a
usage table under which every codon is already optimal (here both lookups
are the constant `1`, so `non_optimality` is all zeros), the
specifications-version `CodonOptimize.evaluate` does not return score `0`
with no windows — it raises `TypeError`, because
`nonoptimal_indices = 3 * np.nonzero(non_optimality)` multiplies the
1-tuple returned by `np.nonzero` (tuple repetition) and the subsequent
int/tuple addition/subtraction is ill-typed.  The `RangeError` half of the
claim does hold: a window length not a multiple of 3 raises before that
point (second conjunct). -/
theorem C8_code_result :
    CodonOptimize.evaluate (fun _ => 1) (fun _ => 1)
        { location := some { start := 0, end_ := 3, strand := 1 } }
        [Base.A, Base.T, Base.G] = Except.error Err.typeError ∧
    CodonOptimize.evaluate (fun _ => 1) (fun _ => 1)
        { location := some { start := 0, end_ := 2, strand := 1 } }
        [Base.A, Base.T] = Except.error Err.valueError := by
  constructor
  · rfl
  · rfl

/-- C9 counterexample.  "EnforceMeltingTemperature constructed with both a
target and explicit mini/maxi whose midpoint differs from the target fails
at construction" is FALSE: `init(mini=50, maxi=70, target=10)` (midpoint
`60 ≠ 10`) succeeds without any error, silently overriding the bounds with
`mini = maxi = target = 10`. -/
theorem C9_counterexample :
    EnforceMeltingTemperature.init (some 50) (some 70) (some 10) none 1 =
      Except.ok { mini := 10, maxi := 10, target := 10, location := none, boost := 1 } ∧
    (10 : ℚ) ≠ (50 + 70) / 2 := by
  constructor
  · rfl
  · norm_num

/-- C9 (amended).  Contradictory `EnforceMeltingTemperature` parameters do
NOT fail at construction: a given `target` always takes precedence, the
constructor succeeding with `mini = maxi = target` whatever `mini`/`maxi`
were.  The `CodonOptimize` half of the claim holds: with both `species`
and `codon_usage_table` omitted, construction fails (`ValueError`, the
source's realization of the spec's `ConfigurationError`). -/
theorem C9_theorem :
    (∀ (mi ma t : ℚ) (loc : Option Loc) (b : ℚ),
      EnforceMeltingTemperature.init (some mi) (some ma) (some t) loc b =
        Except.ok { mini := t, maxi := t, target := t, location := loc, boost := b }) ∧
    (∀ (τ : Type) (speciesTables : String → τ) (loc : Option Loc) (b : ℚ),
      CodonOptimize.init speciesTables none none loc b = Except.error Err.valueError) := by
  constructor
  · intro mi ma t loc b
    rfl
  · intro τ speciesTables loc b
    rfl

/-- C7 counterexample.  "The violated-window list is empty iff the
constraint is fully satisfied" is FALSE: this `EnforcePattern` evaluation
passes (the pattern `AA` occurs exactly the wanted `1` time in `AAC`, so
the score is the best-possible `0`) yet still reports the non-empty window
list `[(0, 3)]` — `evaluate` always reports `[window]`, passing or not. -/
theorem C7_counterexample :
    EnforcePattern.evaluate { pattern := [Base.A, Base.A] } [Base.A, Base.A, Base.C] =
      { score := 0, windows := [(0, 3)] } ∧
    ([((0 : Nat), (3 : Nat))] : List (Nat × Nat)) ≠ [] := by
  constructor
  · rfl
  · simp

/-- C7 (amended).  For `EnforcePattern`, `CodonOptimize` (objectives.py
version) and `EnforceMeltingTemperature`, the violated-window list is
never empty — passing or not, every (successful) evaluation reports
exactly one window: the specification's own resolved window/location. -/
theorem C7_theorem :
    (∀ (p : EnforcePattern) (seq : List Base),
      (p.evaluate seq).windows = [p.window.getD (0, seq.length)]) ∧
    (∀ (usage : List Base → ℚ) (c : CodonOptimizeOld) (seq : List Base)
        (ev : ObjectiveEvaluation), c.evaluate usage seq = Except.ok ev →
      ev.windows = [((c.window.getD (0, seq.length)).1, (c.window.getD (0, seq.length)).2)]) ∧
    (∀ (predictTm : List Base → ℚ) (m : EnforceMeltingTemperature) (seq : List Base)
        (loc : Loc) (ev : ObjectiveEvaluation), m.location = some loc →
      m.evaluate predictTm seq = Except.ok ev → ev.windows = [(loc.start, loc.end_)]) := by
  refine ⟨fun p seq => rfl, ?_, ?_⟩
  · intro usage c seq ev h
    unfold CodonOptimizeOld.evaluate at h
    dsimp only at h
    split at h <;> split at h
    · exact Except.noConfusion h
    · simp only [Except.ok.injEq] at h
      subst h
      rfl
    · exact Except.noConfusion h
    · simp only [Except.ok.injEq] at h
      subst h
      rfl
  · intro predictTm m seq loc ev hloc h
    unfold EnforceMeltingTemperature.evaluate at h
    rw [hloc] at h
    simp only [Except.ok.injEq] at h
    subst h
    rfl

/-- C7 witness: the amended invariant at concrete inputs. -/
theorem C7_witness :
    (EnforcePattern.evaluate { pattern := [Base.A, Base.A], window := some (0, 2) }
        [Base.A, Base.A, Base.C]).windows = [(0, 2)] ∧
    ((ObjectiveEvaluation.mk 1 [(0, 3)]).windows = [(0, 3)]) ∧
    ((ObjectiveEvaluation.mk 10 [(0, 4)]).windows = [(0, 4)]) := by
  refine ⟨C7_theorem.1 _ _, ?_, ?_⟩
  · exact C7_theorem.2.1 (fun _ => 1) { window := some (0, 3) } [Base.A, Base.A, Base.C]
      (ObjectiveEvaluation.mk 1 [(0, 3)])
      (by norm_num [CodonOptimizeOld.evaluate, pySlice, List.range_succ])
  · exact C7_theorem.2.2 (fun _ => 60)
      { mini := 50, maxi := 70, target := 60, location := some { start := 0, end_ := 4, strand := 1 } }
      [Base.A, Base.T, Base.G, Base.C] { start := 0, end_ := 4, strand := 1 }
      (ObjectiveEvaluation.mk 10 [(0, 4)]) rfl
      (by norm_num [EnforceMeltingTemperature.evaluate])

/-- C2.  Void localization: for each specification with an explicit window
(`EnforceGCContent`, `AvoidBlastMatches`, `EnforceTranslation`), localizing
on a window disjoint from its own (`min end₁ end₂ ≤ max start₁ start₂`,
i.e. the half-open intervals share no position) returns the designated
void specification, whose evaluation always has the best-possible score
and reports no violated windows. -/
theorem C2_theorem :
    (∀ (g : EnforceGCContent) (s e ws we : Nat), g.window = some (s, e) →
      min e we ≤ max s ws → g.localized (ws, we) = Localized.void) ∧
    (∀ (b : AvoidBlastMatches) (s e ws we : Nat), b.window = some (s, e) →
      min e we ≤ max s ws → b.localized (ws, we) = Localized.void) ∧
    (∀ (t : EnforceTranslation) (ws we : Nat),
      min we t.window.2 ≤ max ws t.window.1 →
      t.localized (ws, we) = Except.ok Localized.void) ∧
    (∀ best : ℚ, voidEvaluation best = { score := best, windows := [] }) := by
  refine ⟨?_, ?_, ?_, fun _ => rfl⟩
  · intro g s e ws we hw hd
    have hnl : ¬ (s ⊔ ws < e ⊓ we) := Nat.not_lt.mpr hd
    simp [EnforceGCContent.localized, windows_overlap, hw, hnl]
  · intro b s e ws we hw hd
    have hnl : ¬ (s ⊔ ws < e ⊓ we) := Nat.not_lt.mpr hd
    simp [AvoidBlastMatches.localized, windows_overlap, hw, hnl]
  · intro t ws we hd
    have hnl : ¬ (ws ⊔ t.window.1 < we ⊓ t.window.2) := Nat.not_lt.mpr hd
    simp [EnforceTranslation.localized, windows_overlap, hnl]

/-- C2 witness: void localization at concrete disjoint windows. -/
theorem C2_witness :
    EnforceGCContent.localized { gc_min := 0, gc_max := 1, window := some (5, 8) } (8, 10) =
      Localized.void ∧
    AvoidBlastMatches.localized { min_align_length := 4, window := some (5, 8) } (8, 10) =
      Localized.void ∧
    EnforceTranslation.localized { window := (3, 9), translation := ['M', 'K'] } (0, 2) =
      Except.ok Localized.void ∧
    voidEvaluation 1 = { score := 1, windows := [] } := by
  exact ⟨C2_theorem.1 _ 5 8 8 10 rfl (by decide),
         C2_theorem.2.1 _ 5 8 8 10 rfl (by decide),
         C2_theorem.2.2.1 _ 0 2 (by decide),
         C2_theorem.2.2.2 1⟩

/-- C4.  Breach-run merging.  General part, read off the merging loop: for
two breach-start indices `a < b` (sliding-window width `gcw`), separation
of the two underlying sliding windows `[a, a+W)` and `[b, b+W)` by more
than `W` (`a + 2W < b`) yields the two separate windows, separation by
less than `W` (`b < a + 2W`) yields the single merged window.  Concrete
part, through the full `EnforceGCContent.evaluate` with `W = 5` and bounds
`[0, 4/5]`: breach starts at 0 and 20 give exactly `[(0,5), (20,25)]`,
breach starts at 0 and 6 give exactly `[(0,11)]`. -/
theorem C4_theorem :
    (∀ (wstart gcw a b : Nat), a + 2 * gcw < b →
      breachesWindows wstart gcw [a, b] =
        [(wstart + a, wstart + (a + gcw)), (wstart + b, wstart + (b + gcw))]) ∧
    (∀ (wstart gcw a b : Nat), a < b → b < a + 2 * gcw →
      breachesWindows wstart gcw [a, b] = [(wstart + a, wstart + (b + gcw))]) ∧
    gcMergeSpec.evaluate gcTwoFarBreachesSeq =
      { score := -(2/5), windows := [(0, 5), (20, 25)] } ∧
    gcMergeSpec.evaluate gcTwoNearBreachesSeq =
      { score := -(2/5), windows := [(0, 11)] } := by
  refine ⟨?_, ?_, ?_, ?_⟩
  · intro wstart gcw a b h
    simp only [breachesWindows, breachesMergeLoop]
    rw [if_pos (by omega)]
  · intro wstart gcw a b hab h
    simp only [breachesWindows, breachesMergeLoop]
    rw [if_neg (by omega)]
  · norm_num [EnforceGCContent.evaluate, gcMergeSpec, gcTwoFarBreachesSeq,
      gc_content_sliding, gc_content, pySlice, breachValue, breachesStarts,
      breachesStartsAux, breachesWindows, breachesMergeLoop, isGC,
      List.range_succ, max_def, List.replicate]
  · norm_num [EnforceGCContent.evaluate, gcMergeSpec, gcTwoNearBreachesSeq,
      gc_content_sliding, gc_content, pySlice, breachValue, breachesStarts,
      breachesStartsAux, breachesWindows, breachesMergeLoop, isGC,
      List.range_succ, max_def, List.replicate]

/-- C4 witness: the two general merging cases at the claim's concrete
breach-start positions (window offset 0, `W = 5`). -/
theorem C4_witness :
    breachesWindows 0 5 [0, 20] = [(0, 5), (20, 25)] ∧
    breachesWindows 0 5 [0, 6] = [(0, 11)] := by
  constructor
  · have h := C4_theorem.1 0 5 0 20 (by norm_num)
    simpa using h
  · have h := C4_theorem.2.1 0 5 0 6 (by norm_num) (by norm_num)
    simpa using h

/-- Breach values are non-negative (sum of two maxima with `0`). -/
theorem breachValue_nonneg (gc_min gc_max v : ℚ) : 0 ≤ breachValue gc_min gc_max v :=
  add_nonneg (le_max_left _ _) (le_max_left _ _)

/-- A breach value vanishes exactly when the measured value is within
bounds. -/
theorem breachValue_eq_zero_iff (gc_min gc_max v : ℚ) :
    breachValue gc_min gc_max v = 0 ↔ gc_min ≤ v ∧ v ≤ gc_max := by
  unfold breachValue
  rw [add_eq_zero_iff_of_nonneg (le_max_left _ _) (le_max_left _ _),
    max_eq_left_iff, max_eq_left_iff]
  constructor
  · rintro ⟨h1, h2⟩
    exact ⟨by linarith, by linarith⟩
  · rintro ⟨h1, h2⟩
    exact ⟨by linarith, by linarith⟩

/-- A sum of non-negative rationals vanishes exactly when all terms do. -/
theorem sum_eq_zero_iff_of_nonneg (l : List ℚ) (hl : ∀ x ∈ l, 0 ≤ x) :
    l.sum = 0 ↔ ∀ x ∈ l, x = 0 := by
  induction l with
  | nil => simp
  | cons x xs ih =>
    simp only [List.sum_cons, List.mem_cons] at *
    have hx : 0 ≤ x := hl x (Or.inl rfl)
    have hxs : ∀ y ∈ xs, 0 ≤ y := fun y hy => hl y (Or.inr hy)
    have hs : 0 ≤ xs.sum := List.sum_nonneg hxs
    constructor
    · intro h
      have hx0 : x = 0 := by linarith
      have hs0 : xs.sum = 0 := by linarith
      rintro y (rfl | hy)
      · exact hx0
      · exact (ih hxs).mp hs0 y hy
    · intro h
      rw [h x (Or.inl rfl), (ih hxs).mpr fun y hy => h y (Or.inr hy), add_zero]

/-- The breach-start list is empty exactly when the signal is nowhere
positive. -/
theorem breachesStartsAux_eq_nil_iff (l : List ℚ) (i : Nat) :
    breachesStartsAux l i = [] ↔ ∀ x ∈ l, ¬ 0 < x := by
  induction l generalizing i with
  | nil => simp [breachesStartsAux]
  | cons x xs ih =>
    simp only [breachesStartsAux, List.mem_cons]
    split
    · rename_i hx
      constructor
      · intro h
        exact absurd h (List.cons_ne_nil _ _)
      · intro h
        exact absurd hx (h x (Or.inl rfl))
    · rename_i hx
      rw [ih]
      constructor
      · rintro h y (rfl | hy)
        · exact hx
        · exact h y hy
      · intro h y hy
        exact h y (Or.inr hy)

/-- The merging loop always reports at least its final run. -/
theorem breachesMergeLoop_ne_nil (wstart gcw : Nat) (l : List Nat) (cs le : Nat) :
    breachesMergeLoop wstart gcw l cs le ≠ [] := by
  induction l generalizing cs le with
  | nil => simp [breachesMergeLoop]
  | cons i rest ih =>
    unfold breachesMergeLoop
    split
    · exact List.cons_ne_nil _ _
    · exact ih _ _

/-- No violated windows are reported exactly when there are no breach
starts. -/
theorem breachesWindows_eq_nil_iff (wstart gcw : Nat) (starts : List Nat) :
    breachesWindows wstart gcw starts = [] ↔ starts = [] := by
  match starts with
  | [] => simp [breachesWindows]
  | [s] => simp [breachesWindows]
  | s :: s' :: rest =>
    simp [breachesWindows, breachesMergeLoop_ne_nil]

/-- C3 counterexample.  The claimed pass condition is FALSE for
`EnforceMeltingTemperature`: with bounds `[50, 70]` (target the midpoint
`60`) and a predictor reporting `60`, the measured value lies within
`[mini, maxi]`, yet the evaluation's score is `10`, not `0`, and its
window list is `[(0, 4)]`, not `[]`. -/
theorem C3_counterexample :
    EnforceMeltingTemperature.evaluate (fun _ => 60)
        { mini := 50, maxi := 70, target := 60,
          location := some { start := 0, end_ := 4, strand := 1 } }
        [Base.A, Base.T, Base.G, Base.C] =
      Except.ok { score := 10, windows := [(0, 4)] } ∧
    (50 : ℚ) ≤ 60 ∧ (60 : ℚ) ≤ 70 ∧ (10 : ℚ) ≠ 0 ∧
    ([((0 : Nat), (4 : Nat))] : List (Nat × Nat)) ≠ [] := by
  refine ⟨?_, by norm_num, by norm_num, by norm_num, by simp⟩
  norm_num [EnforceMeltingTemperature.evaluate]

/-- C3 (amended).  For `EnforceGCContent` (any `gc_min`/`gc_max`/
`gc_window`) the claim holds as stated: the evaluation has score `0` and
an empty violated-window list iff every measured GC value lies within
`[gc_min, gc_max]`.  For `EnforceMeltingTemperature` (constructed from
`mini`/`maxi`, so `target` is their midpoint) the pass condition is
instead `score ≥ 0` — the score is `(maxi-mini)/2 - |tm - target|`, which
is non-negative iff the measured temperature lies within `[mini, maxi]`
but is `0` only at the exact bounds — and the evaluation always reports
the single window `[location]`, never `[]`. -/
theorem C3_theorem :
    (∀ (g : EnforceGCContent) (seq : List Base),
      ((g.evaluate seq).score = 0 ∧ (g.evaluate seq).windows = []) ↔
        ∀ v ∈ g.measuredValues seq, g.gc_min ≤ v ∧ v ≤ g.gc_max) ∧
    (∀ (mi ma : ℚ) (loc : Loc) (b : ℚ) (predictTm : List Base → ℚ) (seq : List Base),
      EnforceMeltingTemperature.init (some mi) (some ma) none (some loc) b =
        Except.ok { mini := mi, maxi := ma, target := (mi + ma) / 2,
                    location := some loc, boost := b } ∧
      EnforceMeltingTemperature.evaluate predictTm
          { mini := mi, maxi := ma, target := (mi + ma) / 2,
            location := some loc, boost := b } seq =
        Except.ok
          { score := (ma - mi) / 2 - |predictTm (loc.extract_sequence seq) - (mi + ma) / 2|
            windows := [(loc.start, loc.end_)] } ∧
      (0 ≤ (ma - mi) / 2 - |predictTm (loc.extract_sequence seq) - (mi + ma) / 2| ↔
        mi ≤ predictTm (loc.extract_sequence seq) ∧
          predictTm (loc.extract_sequence seq) ≤ ma)) := by
  constructor
  · rintro ⟨mn, mx, go, gw, w, bo⟩ seq
    cases gw with
    | none =>
      simp only [EnforceGCContent.evaluate, EnforceGCContent.measuredValues,
        List.mem_singleton, forall_eq, neg_eq_zero]
      constructor
      · rintro ⟨h1, _⟩
        exact (breachValue_eq_zero_iff _ _ _).mp h1
      · intro h
        have h0 := (breachValue_eq_zero_iff mn mx _).mpr h
        refine ⟨h0, ?_⟩
        rw [if_neg]
        rw [h0]
        exact lt_irrefl 0
    | some gcw =>
      simp only [EnforceGCContent.evaluate, EnforceGCContent.measuredValues, neg_eq_zero]
      have hnn : ∀ x ∈ (gc_content_sliding (pySlice seq
          ((Option.getD w (0, seq.length)).1) ((Option.getD w (0, seq.length)).2)) gcw).map
            (breachValue mn mx), 0 ≤ x := by
        intro x hx
        rcases List.mem_map.mp hx with ⟨v, _, rfl⟩
        exact breachValue_nonneg _ _ _
      rw [sum_eq_zero_iff_of_nonneg _ hnn, breachesWindows_eq_nil_iff,
        breachesStarts, breachesStartsAux_eq_nil_iff]
      constructor
      · rintro ⟨h1, _⟩ v hv
        exact (breachValue_eq_zero_iff _ _ _).mp (h1 _ (List.mem_map_of_mem _ hv))
      · intro h
        have hz : ∀ x ∈ (gc_content_sliding (pySlice seq
            ((Option.getD w (0, seq.length)).1) ((Option.getD w (0, seq.length)).2)) gcw).map
              (breachValue mn mx), x = 0 := by
          intro x hx
          rcases List.mem_map.mp hx with ⟨v, hv, rfl⟩
          exact (breachValue_eq_zero_iff _ _ _).mpr (h v hv)
        refine ⟨hz, fun x hx => ?_⟩
        rw [hz x hx]
        exact lt_irrefl 0
  · intro mi ma loc b predictTm seq
    refine ⟨rfl, rfl, ?_⟩
    constructor
    · intro h
      have habs : |predictTm (loc.extract_sequence seq) - (mi + ma) / 2| ≤ (ma - mi) / 2 := by
        linarith
      have := abs_le.mp habs
      exact ⟨by linarith [this.1], by linarith [this.2]⟩
    · rintro ⟨h1, h2⟩
      have habs : |predictTm (loc.extract_sequence seq) - (mi + ma) / 2| ≤ (ma - mi) / 2 :=
        abs_le.mpr ⟨by linarith, by linarith⟩
      linarith

/-- C1 counterexample.  Localization soundness FAILS for
`EnforceRegionsCompatibility`: with regions `[(0,1), (2,3)]`, an
always-false compatibility condition and the window `(0, 4)` fully
covering both regions, the original evaluation scores `-1` (one
incompatible unordered pair) and reports the two regions, while the
localized evaluation scores `-2` (it counts ordered (region,
included-region) pairs, double-counting every incompatibility) and
reports no windows at all. -/
theorem C1_counterexample :
    (EnforceRegionsCompatibility.localizedEvaluate (fun _ _ _ => false)
        { regions := [(0, 1), (2, 3)] } (0, 4) [Base.A]).score = -2 ∧
    (EnforceRegionsCompatibility.evaluate (fun _ _ _ => false)
        { regions := [(0, 1), (2, 3)] } [Base.A]).score = -1 ∧
    ((-2 : ℚ) ≠ -1) ∧
    (EnforceRegionsCompatibility.localizedEvaluate (fun _ _ _ => false)
        { regions := [(0, 1), (2, 3)] } (0, 4) [Base.A]).windows = [] ∧
    (EnforceRegionsCompatibility.evaluate (fun _ _ _ => false)
        { regions := [(0, 1), (2, 3)] } [Base.A]).windows ≠ [] := by
  refine ⟨?_, ?_, by norm_num, rfl, ?_⟩
  · norm_num [EnforceRegionsCompatibility.localizedEvaluate]
  · norm_num [EnforceRegionsCompatibility.evaluate, combinations2]
  · simp [EnforceRegionsCompatibility.evaluate, combinations2, firstDedup,
      firstDedupAux, List.insertionSort, List.orderedInsert]

/-- C1 (amended).  Localization soundness holds for the three
specifications that localize via `windows_overlap`/window extension —
`EnforceGCContent`, `AvoidBlastMatches` and `EnforceTranslation` (but not
for `EnforceRegionsCompatibility`): whenever the localization window fully
covers the specification's own (non-empty) window — for a specification
without an explicit window, whenever it covers the whole sequence, i.e.
`(0, we)` with `we ≥ len` — evaluating the localized specification yields
the same score and the same violated windows as evaluating the original
on the same sequence. -/
theorem C1_theorem :
    (∀ (g : EnforceGCContent) (s e ws we : Nat) (seq : List Base),
      g.window = some (s, e) → ws ≤ s → e ≤ we → s < e →
      g.localizedEvaluate (ws, we) seq = g.evaluate seq) ∧
    (∀ (g : EnforceGCContent) (we : Nat) (seq : List Base),
      g.window = none → seq.length ≤ we →
      g.localizedEvaluate (0, we) seq = g.evaluate seq) ∧
    (∀ (b : AvoidBlastMatches) (s e ws we : Nat)
        (blastFn : List Base → List (Nat × Nat)) (seq : List Base),
      b.window = some (s, e) → ws ≤ s → e ≤ we → s < e →
      b.localizedEvaluate blastFn (ws, we) seq = b.evaluate blastFn seq) ∧
    (∀ (b : AvoidBlastMatches) (we : Nat)
        (blastFn : List Base → List (Nat × Nat)) (seq : List Base),
      b.window = none → seq.length ≤ we →
      b.localizedEvaluate blastFn (0, we) seq = b.evaluate blastFn seq) ∧
    (∀ (t : EnforceTranslation) (ws we : Nat)
        (translateFn : List Base → List Char) (seq : List Base),
      t.window.2 = t.window.1 + 3 * t.translation.length →
      0 < t.translation.length → ws ≤ t.window.1 → t.window.2 ≤ we →
      t.localizedEvaluate translateFn (ws, we) seq =
        Except.ok (t.evaluate translateFn seq)) := by
  refine ⟨?_, ?_, ?_, ?_, ?_⟩
  · intro g s e ws we seq hw h1 h2 h3
    have hov : windows_overlap (s, e) (ws, we) = some (s, e) := by
      unfold windows_overlap
      rw [if_pos (by simp [max_eq_left h1, min_eq_left h2, h3])]
      simp [max_eq_left h1, min_eq_left h2]
    have hself : ({ g with window := some (s, e) } : EnforceGCContent) = g := by
      rw [← hw]
    unfold EnforceGCContent.localizedEvaluate EnforceGCContent.localized
    rw [hw]
    dsimp only
    rw [hov]
    dsimp only
    rw [hself]
  · intro g we seq hw h
    rcases g with ⟨mn, mx, go, gw, w, bo⟩
    simp only at hw
    subst hw
    cases gw with
    | none => rfl
    | some gcw =>
      unfold EnforceGCContent.localizedEvaluate EnforceGCContent.localized
      dsimp only
      unfold EnforceGCContent.evaluate
      rw [Nat.zero_sub]
      dsimp only [Option.getD_some, Option.getD_none]
      have hs : pySlice seq 0 (we + gcw) = pySlice seq 0 seq.length := by
        simp only [pySlice, List.drop_zero, Nat.sub_zero]
        rw [List.take_of_length_le (by omega), List.take_length]
      rw [hs]
  · intro b s e ws we blastFn seq hw h1 h2 h3
    have hov : windows_overlap (s, e) (ws, we) = some (s, e) := by
      unfold windows_overlap
      rw [if_pos (by simp [max_eq_left h1, min_eq_left h2, h3])]
      simp [max_eq_left h1, min_eq_left h2]
    have hself : ({ b with window := some (s, e) } : AvoidBlastMatches) = b := by
      rw [← hw]
    unfold AvoidBlastMatches.localizedEvaluate AvoidBlastMatches.localized
    rw [hw]
    dsimp only
    rw [hov]
    dsimp only
    rw [hself]
  · intro b we blastFn seq hw h
    rcases b with ⟨r, w⟩
    simp only at hw
    subst hw
    unfold AvoidBlastMatches.localizedEvaluate AvoidBlastMatches.localized
    dsimp only
    unfold AvoidBlastMatches.evaluate
    rw [Nat.zero_sub]
    dsimp only [Option.getD_some, Option.getD_none]
    have hs : pySlice seq 0 (we + r) = pySlice seq 0 seq.length := by
      simp only [pySlice, List.drop_zero, Nat.sub_zero]
      rw [List.take_of_length_le (by omega), List.take_length]
    rw [hs]
  · intro t ws we translateFn seq hlen hk h1 h2
    have hov : windows_overlap (ws, we) t.window = some (t.window.1, t.window.2) := by
      unfold windows_overlap
      rw [if_pos (by simp only [max_eq_right h1, min_eq_right h2]; omega)]
      simp [max_eq_right h1, min_eq_right h2]
    have e1 : t.window.1 + 3 * ((t.window.1 - t.window.1) / 3) = t.window.1 := by omega
    have e2 : min t.window.2 (t.window.1 + 3 * ((t.window.2 - t.window.1) / 3 + 1)) =
        t.window.2 := by omega
    have e3 : (t.translation.drop ((t.window.1 - t.window.1) / 3)).take
        ((t.window.2 - t.window.1) / 3 + 1 - (t.window.1 - t.window.1) / 3) = t.translation := by
      have h0 : (t.window.1 - t.window.1) / 3 = 0 := by omega
      rw [h0, List.drop_zero, Nat.sub_zero]
      apply List.take_of_length_le
      omega
    have hinit : EnforceTranslation.init (t.window.1, t.window.2) t.strand t.translation
        t.boost = Except.ok t := by
      unfold EnforceTranslation.init
      rw [if_neg (by push_cast; omega)]
    unfold EnforceTranslation.localizedEvaluate EnforceTranslation.localized
    rw [hov]
    dsimp only
    rw [e1, e2, e3, hinit]
    rfl

/-- C1 witness: the five soundness statements at concrete covering
windows. -/
theorem C1_witness :
    EnforceGCContent.localizedEvaluate
        { gc_min := 0, gc_max := 1, gc_window := some 2, window := some (1, 3) } (0, 4)
        [Base.G, Base.C, Base.A] =
      EnforceGCContent.evaluate
        { gc_min := 0, gc_max := 1, gc_window := some 2, window := some (1, 3) }
        [Base.G, Base.C, Base.A] ∧
    EnforceGCContent.localizedEvaluate { gc_min := 0, gc_max := 1, gc_window := some 2 } (0, 3)
        [Base.G, Base.C, Base.A] =
      EnforceGCContent.evaluate { gc_min := 0, gc_max := 1, gc_window := some 2 }
        [Base.G, Base.C, Base.A] ∧
    AvoidBlastMatches.localizedEvaluate (fun _ => [])
        { min_align_length := 2, window := some (1, 3) } (0, 4) [Base.G, Base.C, Base.A] =
      AvoidBlastMatches.evaluate (fun _ => [])
        { min_align_length := 2, window := some (1, 3) } [Base.G, Base.C, Base.A] ∧
    AvoidBlastMatches.localizedEvaluate (fun _ => []) { min_align_length := 2 } (0, 3)
        [Base.G, Base.C, Base.A] =
      AvoidBlastMatches.evaluate (fun _ => []) { min_align_length := 2 }
        [Base.G, Base.C, Base.A] ∧
    EnforceTranslation.localizedEvaluate (fun _ => ['M'])
        { window := (0, 3), translation := ['M'] } (0, 3) [Base.A, Base.T, Base.G] =
      Except.ok (EnforceTranslation.evaluate (fun _ => ['M'])
        { window := (0, 3), translation := ['M'] } [Base.A, Base.T, Base.G]) := by
  exact ⟨C1_theorem.1 _ 1 3 0 4 _ rfl (by decide) (by decide) (by decide),
         C1_theorem.2.1 _ 3 _ rfl (by decide),
         C1_theorem.2.2.1 _ 1 3 0 4 _ _ rfl (by decide) (by decide) (by decide),
         C1_theorem.2.2.2.1 _ 3 _ _ rfl (by decide),
         C1_theorem.2.2.2.2 _ 0 3 _ _ (by decide) (by decide) (by decide) (by decide)⟩

/-- C10.  For every `EnforceTranslation` satisfying the constructor
invariant (window length = 3 × translation length) and every window
overlapping its own, `localized` snaps the overlap to whole codons so
that the new window's length is again exactly three times the length of
the sliced translation — the constructor's window-size check inside
`localized` therefore never raises, and the invariant is preserved. -/
theorem C10_theorem (t : EnforceTranslation) (ws we : Nat)
    (hlen : t.window.2 = t.window.1 + 3 * t.translation.length)
    (hov : max ws t.window.1 < min we t.window.2) :
    ∃ t' : EnforceTranslation,
      t.localized (ws, we) = Except.ok (Localized.live t') ∧
      t'.window.2 = t'.window.1 + 3 * t'.translation.length := by
  have hov' : windows_overlap (ws, we) t.window =
      some (max ws t.window.1, min we t.window.2) := by
    unfold windows_overlap
    dsimp only
    rw [if_pos hov]
  have hloc : t.localized (ws, we) = (EnforceTranslation.init
      (t.window.1 + 3 * ((max ws t.window.1 - t.window.1) / 3),
       min t.window.2 (t.window.1 + 3 * ((min we t.window.2 - t.window.1) / 3 + 1)))
      t.strand
      ((t.translation.drop ((max ws t.window.1 - t.window.1) / 3)).take
        ((min we t.window.2 - t.window.1) / 3 + 1 - (max ws t.window.1 - t.window.1) / 3))
      t.boost).map Localized.live := by
    unfold EnforceTranslation.localized
    rw [hov']
  have hinit : EnforceTranslation.init
      (t.window.1 + 3 * ((max ws t.window.1 - t.window.1) / 3),
       min t.window.2 (t.window.1 + 3 * ((min we t.window.2 - t.window.1) / 3 + 1)))
      t.strand
      ((t.translation.drop ((max ws t.window.1 - t.window.1) / 3)).take
        ((min we t.window.2 - t.window.1) / 3 + 1 - (max ws t.window.1 - t.window.1) / 3))
      t.boost = Except.ok
        { window := (t.window.1 + 3 * ((max ws t.window.1 - t.window.1) / 3),
            min t.window.2 (t.window.1 + 3 * ((min we t.window.2 - t.window.1) / 3 + 1)))
          strand := t.strand
          translation := (t.translation.drop ((max ws t.window.1 - t.window.1) / 3)).take
            ((min we t.window.2 - t.window.1) / 3 + 1 - (max ws t.window.1 - t.window.1) / 3)
          boost := t.boost } := by
    unfold EnforceTranslation.init
    rw [if_neg]
    rw [not_ne_iff]
    simp only [List.length_take, List.length_drop]
    omega
  refine ⟨{ window := (t.window.1 + 3 * ((max ws t.window.1 - t.window.1) / 3),
              min t.window.2 (t.window.1 + 3 * ((min we t.window.2 - t.window.1) / 3 + 1)))
            strand := t.strand
            translation := (t.translation.drop ((max ws t.window.1 - t.window.1) / 3)).take
              ((min we t.window.2 - t.window.1) / 3 + 1 - (max ws t.window.1 - t.window.1) / 3)
            boost := t.boost }, ?_, ?_⟩
  · rw [hloc, hinit]
    rfl
  · simp only [List.length_take, List.length_drop]
    omega

/-- C10 witness: the preserved invariant at a concrete localization
(window `(3, 9)`, translation of two amino acids, localization window
`(5, 20)` overlapping mid-codon). -/
theorem C10_witness :
    ∃ t' : EnforceTranslation,
      EnforceTranslation.localized { window := (3, 9), translation := ['M', 'K'] } (5, 20) =
        Except.ok (Localized.live t') ∧
      t'.window.2 = t'.window.1 + 3 * t'.translation.length :=
  C10_theorem { window := (3, 9), translation := ['M', 'K'] } 5 20 (by decide) (by decide)

/-- Looking a key up after `addOcc`: the inserted position is appended to
that key's occurrence list and no other list changes. -/
theorem lookupOccs_addOcc (m : List (List Base × List (Nat × Nat)))
    (kins : List Base) (p : Nat × Nat) (k : List Base) :
    lookupOccs (addOcc m kins p) k =
      lookupOccs m k ++ if kins = k then [p] else [] := by
  induction m with
  | nil =>
    simp only [addOcc, lookupOccs]
    by_cases h : kins = k <;> simp [h, lookupOccs]
  | cons e rest ih =>
    obtain ⟨k', ps⟩ := e
    simp only [addOcc]
    by_cases h1 : k' = kins
    · subst h1
      rw [if_pos rfl]
      simp only [lookupOccs]
      by_cases h2 : k' = k
      · subst h2
        rw [if_pos rfl, if_pos rfl, if_pos rfl]
      · rw [if_neg h2, if_neg h2, if_neg (fun hh : k' = k => h2 hh), List.append_nil]
    · rw [if_neg h1]
      simp only [lookupOccs]
      by_cases h2 : k' = k
      · subst h2
        rw [if_pos rfl, if_pos rfl, if_neg (fun hh : kins = k' => h1 hh.symm), List.append_nil]
      · rw [if_neg h2, if_neg h2]
        exact ih

/-- The keys after `addOcc`: unchanged if the key was present, else the
new key is appended at the end. -/
theorem keys_addOcc (m : List (List Base × List (Nat × Nat)))
    (kins : List Base) (p : Nat × Nat) :
    (addOcc m kins p).map Prod.fst =
      if kins ∈ m.map Prod.fst then m.map Prod.fst else m.map Prod.fst ++ [kins] := by
  induction m with
  | nil => simp [addOcc]
  | cons e rest ih =>
    obtain ⟨k', ps⟩ := e
    simp only [addOcc, List.map_cons]
    by_cases h1 : k' = kins
    · subst h1
      rw [if_pos rfl, if_pos (List.mem_cons_self _ _)]
      rfl
    · rw [if_neg h1, List.map_cons, ih]
      by_cases h2 : kins ∈ rest.map Prod.fst
      · rw [if_pos h2, if_pos (List.mem_cons_of_mem _ h2)]
      · rw [if_neg h2, if_neg (by
          simp only [List.mem_cons]
          rintro (hh | hh)
          · exact h1 hh.symm
          · exact h2 hh), List.cons_append]

/-- Lookup in the grouped map built by the scanner's fold: the fold
appends exactly the occurrences of the key found in the remaining
records. -/
theorem lookupOccs_foldl (rs : List (List Base × (Nat × Nat))) :
    ∀ (m : List (List Base × List (Nat × Nat))) (k : List Base),
    lookupOccs (rs.foldl (fun m r => addOcc m r.1 r.2) m) k =
      lookupOccs m k ++ occsIn rs k := by
  induction rs with
  | nil =>
    intro m k
    simp [occsIn]
  | cons r rest ih =>
    intro m k
    rw [List.foldl_cons, ih, lookupOccs_addOcc]
    by_cases h : r.1 = k <;>
      simp [occsIn, List.filter_cons, h, List.append_assoc]

/-- Membership-invariance of the dedup worker in its `seen` argument. -/
theorem firstDedupAux_congr [DecidableEq α] (s₁ s₂ : List α) (l : List α)
    (h : ∀ a, a ∈ s₁ ↔ a ∈ s₂) : firstDedupAux s₁ l = firstDedupAux s₂ l := by
  induction l generalizing s₁ s₂ with
  | nil => rfl
  | cons x xs ih =>
    simp only [firstDedupAux]
    by_cases hx : x ∈ s₁
    · rw [if_pos hx, if_pos ((h x).mp hx)]
      exact ih s₁ s₂ h
    · rw [if_neg hx, if_neg (fun hh => hx ((h x).mpr hh))]
      rw [ih (x :: s₁) (x :: s₂) (by intro a; simp [List.mem_cons, h a])]

/-- The keys of the grouped map built by the scanner's fold, in order:
the already-present keys followed by the first-occurrence dedup of the
remaining record keys. -/
theorem keys_foldl (rs : List (List Base × (Nat × Nat))) :
    ∀ (m : List (List Base × List (Nat × Nat))),
    (rs.foldl (fun m r => addOcc m r.1 r.2) m).map Prod.fst =
      m.map Prod.fst ++ firstDedupAux (m.map Prod.fst) (rs.map Prod.fst) := by
  induction rs with
  | nil =>
    intro m
    simp [firstDedupAux]
  | cons r rest ih =>
    intro m
    rw [List.foldl_cons, ih, keys_addOcc, List.map_cons]
    by_cases h : r.1 ∈ m.map Prod.fst
    · rw [if_pos h]
      simp only [firstDedupAux, if_pos h]
    · rw [if_neg h]
      simp only [firstDedupAux, if_neg h]
      rw [firstDedupAux_congr (m.map Prod.fst ++ [r.1]) (r.1 :: m.map Prod.fst) _
        (by intro a; simp [List.mem_append, List.mem_cons, or_comm])]
      simp [List.append_assoc]

/-- The grouped map's keys are duplicate-free. -/
theorem nodup_keys_foldl (rs : List (List Base × (Nat × Nat))) :
    ∀ (m : List (List Base × List (Nat × Nat))), (m.map Prod.fst).Nodup →
    ((rs.foldl (fun m r => addOcc m r.1 r.2) m).map Prod.fst).Nodup := by
  induction rs with
  | nil => exact fun m h => h
  | cons r rest ih =>
    intro m h
    rw [List.foldl_cons]
    apply ih
    rw [keys_addOcc]
    by_cases hm : r.1 ∈ m.map Prod.fst
    · rw [if_pos hm]
      exact h
    · rw [if_neg hm]
      simp [List.nodup_append, h, hm]

/-- With duplicate-free keys, filtering the grouped entries is the same
as walking the key list and looking each key up. -/
theorem filterMap_assoc_keys (m : List (List Base × List (Nat × Nat)))
    (hnd : (m.map Prod.fst).Nodup) :
    (m.filterMap fun e => if 1 < e.2.length then some (pyMinByFst e.2) else none) =
      (m.map Prod.fst).filterMap fun k =>
        if 1 < (lookupOccs m k).length then some (pyMinByFst (lookupOccs m k)) else none := by
  induction m with
  | nil => rfl
  | cons e rest ih =>
    obtain ⟨k₀, ps⟩ := e
    rw [List.map_cons, List.filterMap_cons, List.filterMap_cons]
    have hnd' : ((k₀, ps) :: rest).map Prod.fst = k₀ :: rest.map Prod.fst := rfl
    rw [hnd'] at hnd
    have hk₀ : k₀ ∉ rest.map Prod.fst := (List.nodup_cons.mp hnd).1
    have hhead : lookupOccs ((k₀, ps) :: rest) k₀ = ps := by
      simp [lookupOccs]
    have htail : ((rest.map Prod.fst).filterMap fun k =>
        if 1 < (lookupOccs ((k₀, ps) :: rest) k).length then
          some (pyMinByFst (lookupOccs ((k₀, ps) :: rest) k)) else none) =
        ((rest.map Prod.fst).filterMap fun k =>
          if 1 < (lookupOccs rest k).length then
            some (pyMinByFst (lookupOccs rest k)) else none) := by
      apply List.filterMap_congr
      intro k hk
      have hne : ¬ k₀ = k := fun hh => hk₀ (hh ▸ hk)
      simp [lookupOccs, hne]
    rw [hhead, htail, ← ih (List.nodup_cons.mp hnd).2]

/-- A `filterMap` with an if-then-some-else-none body is a filter
followed by a map. -/
theorem filterMap_guard {α β : Type} (l : List α) (p : α → Prop) [DecidablePred p]
    (f : α → β) :
    (l.filterMap fun a => if p a then some (f a) else none) =
      (l.filter fun a => decide (p a)).map f := by
  induction l with
  | nil => rfl
  | cons a rest ih =>
    by_cases h : p a <;> simp [List.filterMap_cons, List.filter_cons, h, ih]

/-- Looking up any key in the scanner's grouped map gives exactly its
directly-read occurrence list. -/
theorem kmersLocations_lookup (rs : List (List Base × (Nat × Nat))) (k : List Base) :
    lookupOccs (kmersLocations rs) k = occsIn rs k := by
  have h := lookupOccs_foldl rs [] k
  simpa [kmersLocations, lookupOccs] using h

/-- The scanner's grouped map lists every distinct recorded key once, in
first-recording order. -/
theorem kmersLocations_keys (rs : List (List Base × (Nat × Nat))) :
    (kmersLocations rs).map Prod.fst = firstDedup (rs.map Prod.fst) := by
  have h := keys_foldl rs []
  simpa [kmersLocations, firstDedup] using h

/-- The scanner's grouped map has duplicate-free keys. -/
theorem kmersLocations_nodup (rs : List (List Base × (Nat × Nat))) :
    ((kmersLocations rs).map Prod.fst).Nodup :=
  nodup_keys_foldl rs [] (by simp)

/-- The scanner's pre-sort window list is exactly the earliest recorded
occurrence of each repeated key, in first-recording key order. -/
theorem kmersLocations_windows (rs : List (List Base × (Nat × Nat))) :
    ((kmersLocations rs).filterMap fun e =>
        if 1 < e.2.length then some (pyMinByFst e.2) else none) =
      (repeatedKeys rs).map fun k => pyMinByFst (occsIn rs k) := by
  rw [filterMap_assoc_keys _ (kmersLocations_nodup rs)]
  have hcongr : ((kmersLocations rs).map Prod.fst).filterMap (fun k =>
      if 1 < (lookupOccs (kmersLocations rs) k).length then
        some (pyMinByFst (lookupOccs (kmersLocations rs) k)) else none) =
      ((kmersLocations rs).map Prod.fst).filterMap (fun k =>
        if 1 < (occsIn rs k).length then some (pyMinByFst (occsIn rs k)) else none) := by
    apply List.filterMap_congr
    intro k _
    rw [kmersLocations_lookup]
  rw [hcongr, kmersLocations_keys,
    filterMap_guard (firstDedup (rs.map Prod.fst)) (fun k => 1 < (occsIn rs k).length)
      (fun k => pyMinByFst (occsIn rs k))]
  rfl

/-- C6 counterexample.  "A subsequence with no repeated key scores 0" is
FALSE: on `ACGT` with `length = 2` (keys `AC`, `CG`; no repeats) the
evaluation's score is the early-return passing score `1`, not `0`. -/
theorem C6_counterexample :
    AvoidNonuniqueKmers.evaluate { length := 2 } [Base.A, Base.C, Base.G, Base.T] =
      { score := 1, windows := [] } ∧
    repeatedKeys (scannerRecords { length := 2 } [Base.A, Base.C, Base.G, Base.T]) = [] ∧
    (1 : ℚ) ≠ 0 := by
  refine ⟨rfl, rfl, by norm_num⟩

/-- C6 (amended).  The uniqueness scanner's evaluation, for every
specification and sequence, is fully characterized by the directly-read
record list: when at least one key is recorded at more than one position,
the score is minus the number of such distinct keys and the violated
windows are exactly the earliest recorded occurrence of each repeated
key, sorted ascending (lexicographically, as Python's `sorted`); with no
repeated key the evaluation is the passing score `1` (not the claimed
`0`) with no windows. -/
theorem C6_theorem (a : AvoidNonuniqueKmers) (seq : List Base) :
    a.evaluate seq =
      if repeatedKeys (scannerRecords a seq) = [] then { score := 1, windows := [] }
      else { score := -((repeatedKeys (scannerRecords a seq)).length : ℚ)
             windows := pySorted ((repeatedKeys (scannerRecords a seq)).map
               fun k => pyMinByFst (occsIn (scannerRecords a seq) k)) } := by
  unfold AvoidNonuniqueKmers.evaluate
  dsimp only
  have hrec : kmerRecords
      (pySlice seq (a.window.getD (0, seq.length)).1 (a.window.getD (0, seq.length)).2)
      a.length a.include_reverse_complement = scannerRecords a seq := rfl
  rw [hrec, kmersLocations_windows]
  have hlen : (pySorted ((repeatedKeys (scannerRecords a seq)).map
      fun k => pyMinByFst (occsIn (scannerRecords a seq) k))).length =
      (repeatedKeys (scannerRecords a seq)).length := by
    unfold pySorted
    rw [(List.perm_insertionSort lexLe _).length_eq, List.length_map]
  by_cases h : repeatedKeys (scannerRecords a seq) = []
  · rw [if_pos h, h]
    simp [pySorted, List.insertionSort]
  · have hne : pySorted ((repeatedKeys (scannerRecords a seq)).map
        fun k => pyMinByFst (occsIn (scannerRecords a seq) k)) ≠ [] := by
      intro hnil
      apply h
      rw [← List.length_eq_zero, ← hlen, hnil]
      rfl
    rw [if_neg hne, if_neg h, hlen]
